import Mathlib

/-!
Shallow embedding of the pc-bridge Windows agent (Go) and proofs about it.

Strings manipulated by the agent are modelled as `List Char`; Go's byte-wise
string operations coincide with this model on the ASCII data the agent handles.
Machine integers are `Nat` with explicit `% 2^32` where 32-bit wrap matters.
OS calls that can fail are modelled as `Option` inputs; timestamps are `Int`
milliseconds.
-/

namespace PcBridge

/-- ASCII lower-casing of a character, the restriction of Go `strings.ToLower`
to the ASCII data handled by the agent. -/
def toLowerStr (s : List Char) : List Char := s.map Char.toLower

/-- Go `strings.TrimSuffix(s, suffix)`: drop `suffix` when it is a suffix. -/
def trimSuffix (s suffix : List Char) : List Char :=
  if suffix.isSuffixOf s then s.take (s.length - suffix.length) else s

/-- ASCII whitespace trimmed by Go `strings.TrimSpace`. -/
def goIsSpace (c : Char) : Bool :=
  c == ' ' || c == '\t' || c == '\n' || c == '\r' || c == '\x0b' || c == '\x0c'

/-- Go `strings.TrimSpace` on ASCII data: drop whitespace at both ends. -/
def trimSpace (s : List Char) : List Char :=
  ((s.dropWhile goIsSpace).reverse.dropWhile goIsSpace).reverse

/-! ## Idle clock (`sensors.GetLastActiveTime`, src/main.go:347-367) -/

/-- Truncation to a Windows `DWORD`, mirroring the Go conversion
`uint32(tickCount)`. -/
def toUInt32n (n : Nat) : Nat := n % 4294967296

/-- The idle-milliseconds computation `currentTick32 - lii.dwTime` performed in
`uint32` arithmetic: `uint32` subtraction is addition of the two's complement
modulo `2^32`. -/
def idleMsOf (tickCount dwTime : Nat) : Nat :=
  toUInt32n (toUInt32n tickCount + (4294967296 - toUInt32n dwTime))

/-- `sensors.GetLastActiveTime`. `now` is `time.Now()` in milliseconds;
`lastInput` is `none` when the `GetLastInputInfo` call fails (`ret == 0`) and
`some dwTime` otherwise; `tickCount` is the raw `GetTickCount64` value. -/
def GetLastActiveTime (now : Int) (lastInput : Option Nat) (tickCount : Nat) : Int :=
  match lastInput with
  | none => now
  | some dwTime => now - (idleMsOf tickCount dwTime : Int)

/-! ## Single-instance handling (`killExistingInstances`, src/main.go:26-71) -/

/-- One `PROCESSENTRY32` row as read by the snapshot walk: the process id and
the executable file name. -/
structure ProcEntry where
  pid : Nat
  exeFile : List Char
deriving DecidableEq, Repr

/-- `killExistingInstances`, as the list of pids the walk opens and terminates.
`myPID` is `os.Getpid()`, `exeName` the base name of `os.Executable()` (the
function lower-cases it), `snapshot` is `none` when
`CreateToolhelp32Snapshot` fails and otherwise the entries yielded by
`Process32FirstW`/`Process32NextW`. An entry is terminated exactly when its
lower-cased executable name equals the agent's lower-cased executable name and
its pid differs from the caller's pid; the caller then continues `main`, it
never exits here. -/
def killExistingInstances (myPID : Nat) (exeName : List Char)
    (snapshot : Option (List ProcEntry)) : List Nat :=
  let exeNameLower := toLowerStr exeName
  match snapshot with
  | none => []
  | some entries =>
      entries.filterMap fun e =>
        if toLowerStr e.exeFile = exeNameLower ∧ e.pid ≠ myPID then some e.pid
        else none

/-! ## Command semaphore (src/main.go:83, 171-188)

The callback does a non-blocking `select` send on the buffered channel
`cmdSem` (capacity `maxConcurrentCommands`); the spawned worker receives from
it on exit. The channel occupancy is the number of workers currently
executing; the label records which branch ran. -/

/-- `maxConcurrentCommands` (src/main.go:83). -/
def maxConcurrentCommands : Nat := 5

/-- Outcome label for one event at the command callback or a worker exit. -/
inductive CmdLabel where
  | acquired
  | droppedFull
  | released
deriving DecidableEq, Repr

/-- Transition relation on the semaphore occupancy (number of running command
workers). `acquire` is the successful `case s.cmdSem <- struct{}{}` branch,
which spawns a worker; `drop` is the `default` branch taken when the buffer is
full, which drops the command and leaves the count unchanged; `release` is the
worker's deferred `<-s.cmdSem` on exit. -/
inductive CmdSemStep : Nat → CmdLabel → Nat → Prop where
  | acquire {n : Nat} : n < maxConcurrentCommands → CmdSemStep n .acquired (n + 1)
  | drop {n : Nat} : maxConcurrentCommands ≤ n → CmdSemStep n .droppedFull n
  | release {n : Nat} : CmdSemStep (n + 1) .released n

/-- Occupancies reachable from process start (channel empty). -/
def CmdReachable (n : Nat) : Prop :=
  Relation.ReflTransGen (fun a b => ∃ l, CmdSemStep a l b) 0 n

/-! ## Pattern cache (`sensors.getPatterns`, src/internal/sensors/games.go:24-55) -/

/-- A cached `(lower-cased pattern, game id)` pair (`gamePattern`). -/
structure GamePattern where
  patternLower : List Char
  gameID : String
deriving DecidableEq, Repr

/-- The cache rebuild loop body: lower-case every pattern of the game map and
pair it with its game id. The Go map is modelled as an association list in one
enumeration order. -/
def buildPatterns (gameMap : List (String × String)) : List GamePattern :=
  gameMap.map fun pg => ⟨toLowerStr pg.1.data, pg.2⟩

/-- The package-level cache state: `patternCache` (`none` = Go `nil`) and
`patternVersion`. -/
structure PatternCache where
  cache : Option (List GamePattern)
  version : Nat
deriving DecidableEq, Repr

/-- What one call to `getPatterns` produces: the returned patterns, the cache
state afterwards, and whether the slow (rebuild) path ran. -/
structure GetPatternsResult where
  patterns : List GamePattern
  state : PatternCache
  rebuilt : Bool
deriving DecidableEq, Repr

/-- `sensors.getPatterns`, state-passing. The fast path returns the cache when
`patternVersion == version && patternCache != nil`; otherwise the cache is
rebuilt from the observed game map and the cached version updated (the
double-checked re-test under the write lock collapses in this sequential
model). -/
def getPatterns (gameMap : List (String × String)) (version : Nat)
    (st : PatternCache) : GetPatternsResult :=
  match st.cache with
  | some c =>
      if st.version = version then ⟨c, st, false⟩
      else
        let pc := buildPatterns gameMap
        ⟨pc, ⟨some pc, version⟩, true⟩
  | none =>
      let pc := buildPatterns gameMap
      ⟨pc, ⟨some pc, version⟩, true⟩

/-! ## Game detection (`sensors.GetRunningGame`, src/internal/sensors/games.go:57-102) -/

/-- The inner pattern loop for one process entry: lower-case the name, strip a
trailing `.exe`, and return the game id of the first pattern `gp` with
`strings.HasPrefix(procName, gp.patternLower) || baseNameLower == gp.patternLower`. -/
def firstMatch (pats : List GamePattern) (exeFile : List Char) : Option String :=
  let procName := toLowerStr exeFile
  let baseNameLower := trimSuffix procName (".exe".data)
  (pats.find? fun gp =>
      gp.patternLower.isPrefixOf procName || baseNameLower == gp.patternLower).map
    GamePattern.gameID

/-- The `Process32FirstW`/`Process32NextW` walk: the game id of the first
matching entry, else `"none"`. -/
def scanProcesses (pats : List GamePattern) : List (List Char) → String
  | [] => "none"
  | e :: rest =>
      match firstMatch pats e with
      | some g => g
      | none => scanProcesses pats rest

/-- `sensors.GetRunningGame` given the patterns returned by `getPatterns` and
the process snapshot (`none` when `CreateToolhelp32Snapshot` fails; an empty
list also covers `Process32FirstW` failing). -/
def GetRunningGame (pats : List GamePattern) (snapshot : Option (List (List Char))) : String :=
  if pats.length = 0 then "none"
  else
    match snapshot with
    | none => "none"
    | some procs => scanProcesses pats procs

/-! ## Command dispatcher (`commands`, src/unnamed/part_004) -/

/-- `isNumeric`: only digits, non-empty. -/
def isNumeric (s : List Char) : Bool :=
  (s.all fun r => decide ('0' ≤ r ∧ r ≤ '9')) && decide (s.length > 0)

/-- `isSafeIdentifier`: alphanumerics plus `.-_`, non-empty. -/
def isSafeIdentifier (s : List Char) : Bool :=
  (s.all fun r =>
    decide (('a' ≤ r ∧ r ≤ 'z') ∨ ('A' ≤ r ∧ r ≤ 'Z') ∨ ('0' ≤ r ∧ r ≤ '9') ∨
      r = '.' ∨ r = '-' ∨ r = '_')) && decide (s.length > 0)

/-- `isSafePackageName`: alphanumerics plus `.-_!`, non-empty. -/
def isSafePackageName (s : List Char) : Bool :=
  (s.all fun r =>
    decide (('a' ≤ r ∧ r ≤ 'z') ∨ ('A' ≤ r ∧ r ≤ 'Z') ∨ ('0' ≤ r ∧ r ≤ '9') ∨
      r = '.' ∨ r = '-' ∨ r = '_' ∨ r = '!')) && decide (s.length > 0)

/-- The PowerShell metacharacters rejected by `isSafePath`. -/
def isBadPathChar (r : Char) : Bool :=
  r == ';' || r == '|' || r == '&' || r == '$' || r == '\x60' || r == '"' ||
    r == '\x27' || r == '\n' || r == '\r'

/-- `isSafePath`: non-empty and free of PowerShell metacharacters. -/
def isSafePath (s : List Char) : Bool :=
  decide (s.length > 0) && s.all fun r => !isBadPathChar r

/-- Split at the first occurrence of `ch`, Go `strings.SplitN(s, ch, 2)`:
`none` when `ch` does not occur, else the pieces before and after it. -/
def splitFirstAt (ch : Char) : List Char → Option (List Char × List Char)
  | [] => none
  | c :: rest =>
      if c = ch then some ([], rest)
      else (splitFirstAt ch rest).map fun ab => (c :: ab.1, ab.2)

/-- Go `strings.Index(s, pat)` for non-empty `pat`: index of the first
occurrence of the sub-list, `none` for `-1`. -/
def indexOfSub (pat : List Char) : List Char → Option Nat
  | [] => none
  | c :: rest =>
      if pat.isPrefixOf (c :: rest) then some 0
      else (indexOfSub pat rest).map (· + 1)

/-- `expandLauncherShortcut`: expand a `prefix:arg` launcher shortcut into a
PowerShell command string; returns `[]` (Go `""`) when the string is not of
that form, when the prefix is unknown, and also when the argument fails the
prefix's allow-list. -/
def expandLauncherShortcut (cmd : List Char) : List Char :=
  match splitFirstAt ':' cmd with
  | none => []
  | some parts =>
    let launcher := toLowerStr (trimSpace parts.1)
    let arg := trimSpace parts.2
    if arg = [] then []
    else if launcher = ("steam".data) then
      if !isNumeric arg then []
      else ("Start-Process \"steam://rungameid/".data) ++ arg ++ ("\"".data)
    else if launcher = ("epic".data) then
      if !isSafeIdentifier arg then []
      else ("Start-Process \"com.epicgames.launcher://apps/".data) ++ arg ++
        ("?action=launch&silent=true\"".data)
    else if launcher = ("xbox".data) ∨ launcher = ("msstore".data) then
      if !isSafePackageName arg then []
      else ("Start-Process explorer.exe -ArgumentList \x27shell:AppsFolder\\".data) ++
        arg ++ ("\x27".data)
    else if launcher = ("exe".data) ∨ launcher = ("run".data) then
      if !isSafePath arg then []
      else
        let split := indexOfSub (".exe ".data) (toLowerStr arg)
        let exePath :=
          match split with
          | some idx => arg.take (idx + 4)
          | none => arg
        let exeArgs :=
          match split with
          | some idx => trimSpace (arg.drop (idx + 5))
          | none => []
        let exePath :=
          if exePath.contains ' ' && !(("\"".data).isPrefixOf exePath) then
            ("\"".data) ++ exePath ++ ("\"".data)
          else exePath
        if exeArgs ≠ [] then
          ("Start-Process ".data) ++ exePath ++ (" -ArgumentList \x27".data) ++
            exeArgs ++ ("\x27".data)
        else ("Start-Process ".data) ++ exePath
    else if launcher = ("close".data) ∨ launcher = ("kill".data) then
      let processName := trimSuffix arg (".exe".data)
      if !isSafeIdentifier processName then []
      else
        ("Get-Process | Where-Object \x7b $_.ProcessName -eq \x27".data) ++
          processName ++
          ("\x27 \x7d | ForEach-Object \x7b $_.CloseMainWindow() \x7d".data)
    else []

/-- `expandWindowsEnv`: repeatedly resolve the first `%VAR%` span against the
environment `env` (Go `os.Getenv`, empty for unset). The Go loop restarts the
scan after every substitution and need not terminate when values reintroduce
`%`, so the model carries explicit fuel; with any positive fuel it is the
identity on strings without `%`. -/
def expandWindowsEnv (env : List Char → List Char) : Nat → List Char → List Char
  | 0, s => s
  | fuel + 1, s =>
      match s.findIdx? (fun c => c = '%') with
      | none => s
      | some start =>
          match (s.drop (start + 1)).findIdx? (fun c => c = '%') with
          | none => s
          | some e0 =>
              let e := e0 + start + 1
              let varName := (s.drop (start + 1)).take (e - (start + 1))
              expandWindowsEnv env fuel
                (s.take start ++ env varName ++ s.drop (e + 1))

/-- The `cmd.exe start` → `Start-Process` rewrite in `executeShellCommand`:
when the lower-cased string begins with `start `, take the remainder after the
third `"` (Go `strings.SplitN(cmdStr, "\"", 4)` needs at least four parts),
trim one trailing `"`, and wrap it in `Start-Process "…"`. -/
def startRewrite (cmdStr : List Char) : List Char :=
  if ("start ".data).isPrefixOf (toLowerStr cmdStr) then
    match splitFirstAt '"' cmdStr with
    | none => cmdStr
    | some p1 =>
        match splitFirstAt '"' p1.2 with
        | none => cmdStr
        | some p2 =>
            match splitFirstAt '"' p2.2 with
            | none => cmdStr
            | some p3 =>
                let target := trimSuffix p3.2 ("\"".data)
                ("Start-Process \"".data) ++ target ++ ("\"".data)
  else cmdStr

/-- The `psCmdlets` prefix table deciding whether the call operator `& ` is
prepended. -/
def psCmdlets : List (List Char) :=
  [("Start-Process".data), ("Add-Type".data), ("Get-Process".data),
   ("Stop-Process".data), ("Set-".data), ("Get-".data), ("New-".data),
   ("Remove-".data), ("Invoke-".data)]

/-- The `needsAmpersand` loop: true when no cmdlet prefix matches. -/
def needsAmpersand (cmdStr : List Char) : Bool :=
  !(psCmdlets.any fun p => p.isPrefixOf cmdStr)

/-- The observable outcome of one `Execute` call: which external effect it
performs. `noop` is a `return nil` with no child process; `ctrlF6` is the
`keybd_event` hotkey injection (no child); the remaining constructors each
spawn one `powershell` child (for `shell`, with the recorded `-Command`
string). -/
inductive Effect where
  | noop
  | ctrlF6
  | dismissScreensaver
  | notify (payload : List Char)
  | shell (psCommand : List Char)
deriving DecidableEq, Repr

/-- Whether the effect spawns a child process. -/
def Effect.spawnsProcess : Effect → Bool
  | .noop => false
  | .ctrlF6 => false
  | .dismissScreensaver => true
  | .notify _ => true
  | .shell _ => true

/-- `config.Commands` (src/internal/config/config.go), the predefined shell
strings; empty means the payload supplies the command. -/
def configCommands : List (String × List Char) :=
  [("SteamLaunch", []),
   ("Screensaver", ("%windir%\\System32\\scrnsave.scr /s".data)),
   ("Wake",
    ("Add-Type -AssemblyName System.Windows.Forms; [System.Windows.Forms.SendKeys]::SendWait(\x27\x7bF15\x7d\x27)".data)),
   ("Shutdown", ("shutdown -s -t 0".data)),
   ("sleep", ("Rundll32.exe powrprof.dll,SetSuspendState 0,1,0".data)),
   ("discord_join", []),
   ("discord_leave_channel", [])]

/-- Go map lookup `config.Commands[command]`: the zero value `""` when the key
is absent. -/
def lookupCommand (tbl : List (String × List Char)) (name : String) : List Char :=
  ((tbl.find? fun kv => kv.1 = name).map Prod.snd).getD []

/-- The payload normalisation at the top of `Execute`: trim whitespace, then
map the literal bus-side default button payloads `PRESS`/`press` to empty. -/
def normalizePayload (payload : List Char) : List Char :=
  let t := trimSpace payload
  if t = ("PRESS".data) ∨ t = ("press".data) then [] else t

/-- `executeShellCommand` on an already-normalised payload, with the command
table and environment as parameters and `fuel` for `expandWindowsEnv`.
Faithfully to the source, a launcher shortcut whose argument is rejected
(`expandLauncherShortcut` = `""`) leaves `cmdStr` unchanged and the original
string still reaches the `powershell` spawn. -/
def executeShellCommand (tbl : List (String × List Char))
    (env : List Char → List Char) (fuel : Nat)
    (command : String) (payload : List Char) : Effect :=
  let cmdStr := lookupCommand tbl command
  let cmdStr := if cmdStr = [] ∧ payload ≠ [] then payload else cmdStr
  if cmdStr = [] then .noop
  else
    let launchCmd := expandLauncherShortcut cmdStr
    let cmdStr := if launchCmd ≠ [] then launchCmd else cmdStr
    let cmdStr := expandWindowsEnv env fuel cmdStr
    let cmdStr := startRewrite cmdStr
    let psCommand := if needsAmpersand cmdStr then ("& ".data) ++ cmdStr else cmdStr
    .shell psCommand

/-- `commands.Execute`: normalise the payload, then dispatch on the command
name: `discord_leave_channel` injects Ctrl+F6, `Wake` dismisses the
screensaver, `notification` with an empty normalised payload is a no-op and
otherwise raises a toast, and everything else goes to `executeShellCommand`. -/
def Execute (tbl : List (String × List Char)) (env : List Char → List Char)
    (fuel : Nat) (command : String) (payload : List Char) : Effect :=
  let payload := normalizePayload payload
  if command = "discord_leave_channel" then .ctrlF6
  else if command = "Wake" then .dismissScreensaver
  else if command = "notification" then
    if payload = [] then .noop else .notify payload
  else executeShellCommand tbl env fuel command payload

/-! ## Toast XML escaping (`escapeXML`, src/unnamed/part_004:192-219) -/

/-- The control characters `escapeXML` strips: below `0x20` and not tab,
newline or CR (prohibited by XML 1.0). -/
def isXMLProhibited (r : Char) : Bool :=
  decide (r.toNat < 0x20) && !(r == '\t') && !(r == '\n') && !(r == '\r')

/-- The switch body of `escapeXML` for one kept character. -/
def escapeChar (r : Char) : List Char :=
  if r = '&' then ("&amp;".data)
  else if r = '<' then ("&lt;".data)
  else if r = '>' then ("&gt;".data)
  else if r = '\x27' then ("&apos;".data)
  else if r = '"' then ("&quot;".data)
  else [r]

/-- `escapeXML`: strip prohibited control characters and escape the five XML
special characters. -/
def escapeXML : List Char → List Char
  | [] => []
  | r :: rest =>
      if isXMLProhibited r then escapeXML rest
      else escapeChar r ++ escapeXML rest

/-- The five XML special characters escaped by `escapeXML`. -/
def xmlSpecials : List Char := ['&', '<', '>', '\x27', '"']

/-! ## Helper lemmas -/

/-- The process walk returns `"none"` when no entry matches any pattern. -/
theorem scanProcesses_eq_none (pats : List GamePattern) :
    ∀ procs : List (List Char), (∀ e ∈ procs, firstMatch pats e = none) →
      scanProcesses pats procs = "none"
  | [], _ => rfl
  | e :: rest, h => by
      have he : firstMatch pats e = none := h e (by simp)
      have ih := scanProcesses_eq_none pats rest (fun x hx => h x (by simp [hx]))
      simp [scanProcesses, he, ih]

/-- The process walk returns the game id of the first matching entry. -/
theorem scanProcesses_first_hit (pats : List GamePattern) :
    ∀ (l1 : List (List Char)) (e : List Char) (l2 : List (List Char)) (g : String),
      (∀ x ∈ l1, firstMatch pats x = none) → firstMatch pats e = some g →
      scanProcesses pats (l1 ++ e :: l2) = g
  | [], _, _, _, _, he => by simp [scanProcesses, he]
  | x :: l1, e, l2, g, h, he => by
      have hx : firstMatch pats x = none := h x (by simp)
      have ih := scanProcesses_first_hit pats l1 e l2 g (fun y hy => h y (by simp [hy])) he
      simp [scanProcesses, hx, ih]

/-- Membership in the terminate list of `killExistingInstances`: exactly the
snapshot entries with the agent's lower-cased executable name and a pid other
than the caller's. -/
theorem mem_killExistingInstances (myPID : Nat) (exeName : List Char)
    (entries : List ProcEntry) (p : Nat) :
    p ∈ killExistingInstances myPID exeName (some entries) ↔
      ∃ e ∈ entries, toLowerStr e.exeFile = toLowerStr exeName ∧
        e.pid ≠ myPID ∧ e.pid = p := by
  simp only [killExistingInstances, List.mem_filterMap]
  constructor
  · rintro ⟨e, he, hcond⟩
    split at hcond
    · rename_i hc
      obtain rfl : e.pid = p := by injection hcond
      exact ⟨e, he, hc.1, hc.2, rfl⟩
    · cases hcond
  · rintro ⟨e, he, h1, h2, rfl⟩
    exact ⟨e, he, by rw [if_pos ⟨h1, h2⟩]⟩

/-- `escapeChar` keeps a character verbatim when it is none of the five XML
special characters. -/
theorem escapeChar_of_not_special {r : Char} (h : r ∉ xmlSpecials) :
    escapeChar r = [r] := by
  simp only [xmlSpecials, List.mem_cons, List.not_mem_nil, or_false, not_or] at h
  obtain ⟨h1, h2, h3, h4, h5⟩ := h
  simp [escapeChar, h1, h2, h3, h4, h5]

/-- On inputs free of the five XML special characters, `escapeXML` only strips
the prohibited control characters. -/
theorem escapeXML_eq_filter :
    ∀ s : List Char, (∀ c ∈ s, c ∉ xmlSpecials) →
      escapeXML s = s.filter (fun c => !isXMLProhibited c)
  | [], _ => rfl
  | r :: rest, h => by
      have hr : r ∉ xmlSpecials := h r (by simp)
      have ih := escapeXML_eq_filter rest (fun c hc => h c (by simp [hc]))
      by_cases hp : isXMLProhibited r
      · simp [escapeXML, List.filter_cons, hp, ih]
      · simp [escapeXML, List.filter_cons, hp, ih, escapeChar_of_not_special hr]

/-! ## Claim theorems -/

/-- C1: the claim says every `prefix:arg` command rejected by its allow-list is
dropped with no child process and is never dispatched to the shell. The code
refutes this: `expandLauncherShortcut` returns `""` for a rejected argument,
`executeShellCommand` cannot tell that apart from "not a shortcut", and the
original string is dispatched to `powershell` unchanged. At the concrete
inputs `steam:abc` (non-numeric Steam id) and `exe:calc.exe; foo` (the `;`
metacharacter) the grammar rejects the argument yet a `powershell` child is
spawned with the raw string behind a call operator. -/
theorem c1_rejected_shortcut_still_dispatched :
    expandLauncherShortcut ("steam:abc".data) = [] ∧
    Execute configCommands (fun _ => []) 4 ("SteamLaunch") ("steam:abc".data) =
      Effect.shell ("& steam:abc".data) ∧
    expandLauncherShortcut ("exe:calc.exe; foo".data) = [] ∧
    Execute configCommands (fun _ => []) 4 ("SteamLaunch") ("exe:calc.exe; foo".data) =
      Effect.shell ("& exe:calc.exe; foo".data) ∧
    (Effect.shell ("& steam:abc".data)).spawnsProcess = true := by
  refine ⟨by decide, by decide, by decide, by decide, rfl⟩

/-- C2 counterexample: the claim says a second invocation detects a held
single-instance primitive, logs, and exits 0 leaving the running first
instance untouched. The code has no such primitive: `main` first calls
`killExistingInstances`, and with a snapshot holding a same-named process of
pid 100 while the caller has pid 200, pid 100 is opened and terminated — the
first instance is not left untouched and the second invocation continues. -/
theorem c2_second_instance_counterexample :
    killExistingInstances 200 ("pc-agent.exe".data)
      (some [⟨100, ("pc-agent.exe".data)⟩]) = [100] ∧
    (100 : Nat) ∈ killExistingInstances 200 ("pc-agent.exe".data)
      (some [⟨100, ("pc-agent.exe".data)⟩]) := by
  refine ⟨by decide, by decide⟩

/-- C2 (amended): when the binary is launched while another instance runs, the
new invocation does not exit; it walks the process snapshot and terminates
exactly those processes whose lower-cased executable name equals its own
lower-cased executable name and whose pid differs from its own, then continues
its startup. -/
theorem c2_kill_characterization (myPID : Nat) (exeName : List Char)
    (entries : List ProcEntry) (p : Nat) :
    p ∈ killExistingInstances myPID exeName (some entries) ↔
      ∃ e ∈ entries, toLowerStr e.exeFile = toLowerStr exeName ∧
        e.pid ≠ myPID ∧ e.pid = p :=
  mem_killExistingInstances myPID exeName entries p

/-- C3: the idle time is the 32-bit unsigned difference of the tick counters,
so with a current tick ≡ 5 (mod 2³²) and last-input tick `0xFFFFFFF0` the
idle time is exactly `0x15` ms, and the returned timestamp is the current
wall-clock time minus that idle duration. -/
theorem c3_tick_wrap (now : Int) (tick : Nat) (h : tick % 4294967296 = 5) :
    idleMsOf tick 0xFFFFFFF0 = 0x15 ∧
    GetLastActiveTime now (some 0xFFFFFFF0) tick = now - 0x15 := by
  have hidle : idleMsOf tick 0xFFFFFFF0 = 0x15 := by
    unfold idleMsOf toUInt32n
    rw [h]
  refine ⟨hidle, ?_⟩
  simp [GetLastActiveTime, hidle]

/-- C3 witness at tick = 5. -/
theorem c3_tick_wrap_witness :
    (5 : Nat) % 4294967296 = 5 ∧
    idleMsOf 5 0xFFFFFFF0 = 0x15 ∧
    GetLastActiveTime 1000 (some 0xFFFFFFF0) 5 = 1000 - 0x15 :=
  ⟨by decide, c3_tick_wrap 1000 5 (by decide)⟩

/-- C4: `GetRunningGame` returns `"none"` on snapshot failure, on an empty
pattern set, and when no process matches; otherwise it returns the game id
produced for the first process whose lower-cased name matches (by pattern
prefix, or by equality after stripping a trailing `.exe`) by the first
matching pattern. -/
theorem c4_running_game (pats : List GamePattern) :
    GetRunningGame pats none = "none" ∧
    (∀ snap, GetRunningGame [] snap = "none") ∧
    (∀ procs, pats ≠ [] → (∀ e ∈ procs, firstMatch pats e = none) →
      GetRunningGame pats (some procs) = "none") ∧
    (∀ l1 e l2 g, pats ≠ [] → (∀ x ∈ l1, firstMatch pats x = none) →
      firstMatch pats e = some g →
      GetRunningGame pats (some (l1 ++ e :: l2)) = g) := by
  refine ⟨?_, ?_, ?_, ?_⟩
  · unfold GetRunningGame
    split <;> rfl
  · intro snap
    rfl
  · intro procs hne hall
    have hlen : ¬pats.length = 0 := by simpa [List.length_eq_zero] using hne
    unfold GetRunningGame
    rw [if_neg hlen]
    exact scanProcesses_eq_none pats procs hall
  · intro l1 e l2 g hne hl1 he
    have hlen : ¬pats.length = 0 := by simpa [List.length_eq_zero] using hne
    unfold GetRunningGame
    rw [if_neg hlen]
    exact scanProcesses_first_hit pats l1 e l2 g hl1 he

/-- C4 witness: game map `{"fortnite": "fortnite_game"}` and a running process
`FortniteClient-Win64-Shipping.exe` yield `"fortnite_game"`. -/
theorem c4_running_game_witness :
    GetRunningGame (buildPatterns [("fortnite", "fortnite_game")])
      (some [("FortniteClient-Win64-Shipping.exe".data)]) = "fortnite_game" :=
  (c4_running_game (buildPatterns [("fortnite", "fortnite_game")])).2.2.2
    [] ("FortniteClient-Win64-Shipping.exe".data) [] "fortnite_game"
    (by decide) (by simp) (by decide)

/-- C5: `getPatterns` rebuilds the cache if and only if the observed game-map
version differs from the cached version or no cache has been built yet; when
the versions agree and a cache exists, the cached vector is returned and the
cache state is unchanged. -/
theorem c5_pattern_cache (gm : List (String × String)) (v : Nat)
    (st : PatternCache) :
    ((getPatterns gm v st).rebuilt = true ↔ (st.version ≠ v ∨ st.cache = none)) ∧
    (∀ c, st.version = v → st.cache = some c →
      (getPatterns gm v st).patterns = c ∧ (getPatterns gm v st).state = st) := by
  obtain ⟨cache, version⟩ := st
  cases cache with
  | none => simp [getPatterns]
  | some c0 =>
      by_cases hv : version = v
      · subst hv
        simp [getPatterns]
      · simp [getPatterns, hv]

/-- C5 witness: with matching versions the built cache is returned unchanged. -/
theorem c5_pattern_cache_witness :
    (getPatterns [("a", "b")] 3 ⟨some (buildPatterns [("x", "y")]), 3⟩).patterns =
      buildPatterns [("x", "y")] ∧
    (getPatterns [("a", "b")] 3 ⟨some (buildPatterns [("x", "y")]), 3⟩).state =
      ⟨some (buildPatterns [("x", "y")]), 3⟩ :=
  (c5_pattern_cache [("a", "b")] 3 ⟨some (buildPatterns [("x", "y")]), 3⟩).2
    (buildPatterns [("x", "y")]) rfl rfl

/-- C6: on every input containing none of the five XML special characters,
applying `escapeXML` twice equals applying it once. -/
theorem c6_escape_idem (s : List Char) (h : ∀ c ∈ s, c ∉ xmlSpecials) :
    escapeXML (escapeXML s) = escapeXML s := by
  have h1 : escapeXML s = s.filter (fun c => !isXMLProhibited c) :=
    escapeXML_eq_filter s h
  have h2 : ∀ c ∈ s.filter (fun c => !isXMLProhibited c), c ∉ xmlSpecials :=
    fun c hc => h c (List.mem_of_mem_filter hc)
  rw [h1, escapeXML_eq_filter _ h2, List.filter_eq_self.mpr]
  intro a ha
  exact (List.mem_filter.mp ha).2

/-- C6 witness on a concrete input with a control character and no XML
special characters. -/
theorem c6_escape_idem_witness :
    escapeXML (escapeXML ("Hello\x01 world".data)) =
      escapeXML ("Hello\x01 world".data) :=
  c6_escape_idem ("Hello\x01 world".data) (by decide)

/-- C7: `Execute` trims the payload and maps the literal button defaults
`PRESS`/`press` to empty — both `"PRESS"` and `"  press  "` normalise to
empty — and a `notification` command whose normalised payload is empty is a
no-op: it returns success and spawns no process. -/
theorem c7_press_normalisation_noop :
    normalizePayload ("PRESS".data) = [] ∧
    normalizePayload ("  press  ".data) = [] ∧
    (∀ tbl env fuel payload, normalizePayload payload = [] →
      Execute tbl env fuel ("notification") payload = Effect.noop ∧
      (Execute tbl env fuel ("notification") payload).spawnsProcess = false) := by
  refine ⟨by decide, by decide, ?_⟩
  intro tbl env fuel payload h
  have hx : Execute tbl env fuel ("notification") payload = Effect.noop := by
    simp [Execute, h]
  exact ⟨hx, by rw [hx]; rfl⟩

/-- C7 witness at payload `"PRESS"`. -/
theorem c7_press_normalisation_noop_witness :
    Execute configCommands (fun _ => []) 1 ("notification") ("PRESS".data) =
      Effect.noop ∧
    (Execute configCommands (fun _ => []) 1 ("notification")
      ("PRESS".data)).spawnsProcess = false :=
  c7_press_normalisation_noop.2.2 configCommands (fun _ => []) 1 ("PRESS".data)
    (by decide)

/-- C8: the semaphore capacity is 5; every step from an occupancy within the
cap stays within the cap, an arrival while all slots are held is dropped with
the occupancy unchanged, and every occupancy reachable from start is at most
the cap. -/
theorem c8_semaphore_invariant :
    maxConcurrentCommands = 5 ∧
    (∀ n l n', CmdSemStep n l n' →
      n ≤ maxConcurrentCommands → n' ≤ maxConcurrentCommands) ∧
    (∀ n n', CmdSemStep n CmdLabel.droppedFull n' → n' = n) ∧
    (∀ n, CmdReachable n → n ≤ maxConcurrentCommands) := by
  refine ⟨rfl, ?_, ?_, ?_⟩
  · intro n l n' hstep hn
    cases hstep with
    | acquire h => exact h
    | drop h => exact hn
    | release => exact Nat.le_of_succ_le hn
  · intro n n' hstep
    cases hstep
    rfl
  · intro n h
    induction h with
    | refl => exact Nat.zero_le _
    | tail _ hbc ih =>
        obtain ⟨l, hstep⟩ := hbc
        cases hstep with
        | acquire h => exact h
        | drop h => exact ih
        | release => exact Nat.le_of_succ_le ih

/-- C8 witness: the occupancy 2, reached by two accepted commands, respects
the cap. -/
theorem c8_semaphore_invariant_witness : (2 : Nat) ≤ maxConcurrentCommands :=
  c8_semaphore_invariant.2.2.2 2
    (Relation.ReflTransGen.tail
      (Relation.ReflTransGen.tail Relation.ReflTransGen.refl
        ⟨CmdLabel.acquired, CmdSemStep.acquire (by decide)⟩)
      ⟨CmdLabel.acquired, CmdSemStep.acquire (by decide)⟩)

/-- C9: `GetLastActiveTime` never returns a timestamp later than the current
wall-clock time: on OS-call failure it returns now, and otherwise it subtracts
a non-negative unsigned idle-millisecond value from now. -/
theorem c9_last_active_le_now (now : Int) (lastInput : Option Nat)
    (tick : Nat) : GetLastActiveTime now lastInput tick ≤ now := by
  cases lastInput with
  | none => exact le_refl now
  | some dwTime =>
      simp only [GetLastActiveTime]
      omega

/-- C10: `killExistingInstances` never terminates the calling process: every
terminated pid differs from the caller's pid, and comes from a snapshot entry
whose lower-cased executable name equals the agent's lower-cased executable
name. -/
theorem c10_never_kill_self (myPID : Nat) (exeName : List Char)
    (snapshot : Option (List ProcEntry)) (p : Nat)
    (hp : p ∈ killExistingInstances myPID exeName snapshot) :
    p ≠ myPID ∧ ∃ entries e, snapshot = some entries ∧ e ∈ entries ∧
      toLowerStr e.exeFile = toLowerStr exeName ∧ e.pid = p ∧ e.pid ≠ myPID := by
  cases snapshot with
  | none => simp [killExistingInstances] at hp
  | some entries =>
      rw [mem_killExistingInstances myPID exeName entries p] at hp
      obtain ⟨e, he, h1, h2, h3⟩ := hp
      exact ⟨h3 ▸ h2, entries, e, rfl, he, h1, h3, h2⟩

/-- C10 witness on a concrete snapshot holding the caller itself and one other
same-named process. -/
theorem c10_never_kill_self_witness :
    (100 : Nat) ∈ killExistingInstances 42 ("pc-agent.exe".data)
      (some [⟨42, ("pc-agent.exe".data)⟩, ⟨100, ("pc-agent.exe".data)⟩]) ∧
    ((100 : Nat) ≠ 42 ∧ ∃ entries e,
      (some [⟨42, ("pc-agent.exe".data)⟩, ⟨100, ("pc-agent.exe".data)⟩] :
        Option (List ProcEntry)) = some entries ∧ e ∈ entries ∧
      toLowerStr e.exeFile = toLowerStr ("pc-agent.exe".data) ∧
      e.pid = 100 ∧ e.pid ≠ 42) :=
  ⟨by decide,
   c10_never_kill_self 42 ("pc-agent.exe".data)
     (some [⟨42, ("pc-agent.exe".data)⟩, ⟨100, ("pc-agent.exe".data)⟩]) 100
     (by decide)⟩

end PcBridge
